import Mathlib

/-!
Shallow embedding of the basecouch database layer (database.go) and its REST
helpers (rest.go).  Go strings are modelled as Lean `String`, machine integers
as `Nat`/`Int` with explicit `% 2^64` where overflow matters, fallible Go
functions as `Except`/`Option`, and the external Couchbase bucket as an
association list from keys to typed values, with the bucket-adapter contract
modelled from the spec where the client library is external to this repository.
-/

namespace Basecouch

/-- JSON values as decoded by Go's encoding/json into `interface{}`:
null, bool, float64 (modelled as `Int`; the code only uses integral numbers
and truncates with `int(...)`), string, array, object (Go map, modelledas an
association list with distinct keys after decoding). -/
inductive JVal where
  | null : JVal
  | bool (b : Bool) : JVal
  | num (n : Int) : JVal
  | str (s : String) : JVal
  | arr (l : List JVal) : JVal
  | obj (l : List (String × JVal)) : JVal

/-- `type Body map[string]interface{}` from the Go source. -/
def Body := List (String × JVal)

/-- Go map lookup `body[k]`: `List.lookup` on the association list. -/
def bodyGet (b : Body) (k : String) : Option JVal := List.lookup k b

/-- Go `error` values that the two source files create or inspect:
`*HTTPError{Status, Message}` from database.go, `*gomemcached.MCResponse`
with its status code, and any other error (carrying its `Error()` string). -/
inductive GoError where
  | httpError (status : Int) (message : String) : GoError
  | mc (status : Nat) : GoError
  | otherErr (s : String) : GoError
deriving DecidableEq, Repr

/-- gomemcached.KEY_ENOENT: the distinguished not-found status of the K/V
store (spec 4.1: missing key is a distinguished error). -/
def kKEY_ENOENT : Nat := 1

/-- gomemcached.KEY_EEXISTS: the distinguished already-exists status. -/
def kKEY_EEXISTS : Nat := 2

/-- The character class of `kDBNameMatch = regexp.MustCompile("[-%+()$_a-z0-9]+")`. -/
def isDBNameChar (c : Char) : Bool :=
  c = '-' || c = '%' || c = '+' || c = '(' || c = ')' || c = '$' || c = '_' ||
  ('a' ≤ c && c ≤ 'z') || ('0' ≤ c && c ≤ '9')

/-- `kDBNameMatch.MatchString(name)`: the regexp `[-%+()$_a-z0-9]+` is
unanchored, so MatchString succeeds iff some nonempty substring matches,
i.e. iff the name contains at least one character of the class. -/
def kDBNameMatchString (name : String) : Bool := name.data.any isDBNameChar

/-- `dbInternalDocName`: "" for a name rejected by MatchString, else "cdb:"+name. -/
def dbInternalDocName (dbName : String) : String :=
  if !kDBNameMatchString dbName then "" else "cdb:" ++ dbName

/-- The stored document record (crud layer; only the fields the two views in
database.go inspect: `doc.sequence`, `doc.current._id`, `doc.current._rev`,
`doc.current._deleted`). -/
structure DocRecord where
  sequence : Option Nat
  curId : String
  curRev : String
  curDeleted : Bool
deriving DecidableEq, Repr

/-- A value stored in the bucket: a database record (written by
CreateDatabase), a numeric counter (written by Incr), a document record, or
a local-document body. -/
inductive BVal where
  | dbRec (name : String) (docPfx : String) : BVal
  | counter (n : Nat) : BVal
  | docRec (d : DocRecord) : BVal
  | localDoc (b : Body) : BVal

/-- The external bucket, modelled from the spec as a flat key/value store;
an association list with at most one binding per key. -/
def Bucket := List (String × BVal)

def bucketLookup (b : Bucket) (k : String) : Option BVal := List.lookup k b

/-- Modelled from the spec: `Set(key, value)` is an unconditional write
(replace the binding if present, else append it). -/
def bucketSet : Bucket → String → BVal → Bucket
  | [], k, v => [(k, v)]
  | (k', v') :: rest, k, v =>
      if k' = k then (k, v) :: rest else (k', v') :: bucketSet rest k v

/-- Modelled from the spec: `Delete(key)`; deleting an absent key is an
error at the K/V level (KEY_ENOENT), which callers may ignore. -/
def bucketDelete (b : Bucket) (k : String) : Except GoError Bucket :=
  if (bucketLookup b k).isSome then
    .ok (List.filter (fun p => decide (p.1 ≠ k)) b)
  else .error (.mc kKEY_ENOENT)

/-- `Delete` with the error ignored, as the bulk-cleanup call sites do. -/
def bucketDeleteQuiet (b : Bucket) (k : String) : Bucket :=
  match bucketDelete b k with
  | .ok b' => b'
  | .error _ => b

/-- The `Database` struct (the unexported `bucket` field is passed
explicitly to the operations instead). Go field `DocPrefix` is `docPfx`
here. -/
structure Database where
  Name : String
  docPfx : String
deriving DecidableEq, Repr

/-- Go's `json.Unmarshal` of a stored value into the `Database` struct:
any JSON object decodes successfully (unknown fields ignored, absent fields
zero-valued); a bare number (a counter) fails. Returns the decoded
(name, docPfx) pair. -/
def decodeAsDatabase : BVal → Option (String × String)
  | .dbRec n p => some (n, p)
  | .counter _ => none
  | .docRec _ => some ("", "")
  | .localDoc b =>
      some ((match bodyGet b "name" with | some (.str s) => s | _ => ""),
            (match bodyGet b "docPrefix" with | some (.str s) => s | _ => ""))

/-- Modelled from the spec: `Get(key)` decodes the stored JSON into the
caller's shape; a missing key is the distinguished KEY_ENOENT error. Here
specialised to decoding into `Database`, as GetDatabase/CreateDatabase do. -/
def bucketGetDb (b : Bucket) (k : String) : Except GoError (String × String) :=
  match bucketLookup b k with
  | none => .error (.mc kKEY_ENOENT)
  | some v =>
      match decodeAsDatabase v with
      | some nd => .ok nd
      | none => .error (.otherErr "json: cannot unmarshal number into Go value of type basecouch.Database")

/-- `GetDatabase(bucket, name)` from database.go. -/
def GetDatabase (bucket : Bucket) (name : String) : Except GoError Database :=
  let docname := dbInternalDocName name
  if docname = "" then .error (.httpError 400 "Illegal database name")
  else
    match bucketGetDb bucket docname with
    | .error e => .error e
    | .ok (n, p) => .ok { Name := n, docPfx := p }

/-- `CreateDatabase(bucket, name)` from database.go. The UUID produced by
`createUUID()` (random; defined outside these two files) is passed in as
the argument `uuid`. Returns the handle together with the updated bucket
(the Go code mutates the bucket through `Set`). -/
def CreateDatabase (bucket : Bucket) (name : String) (uuid : String) :
    Except GoError (Database × Bucket) :=
  let docname := dbInternalDocName name
  if docname = "" then .error (.httpError 400 "Illegal database name")
  else
    match bucketGetDb bucket docname with
    | .ok _ => .error (.httpError 412 "Database already exists")
    | .error _ =>
        let db : Database :=
          { Name := name, docPfx := "doc:" ++ name ++ "/" ++ uuid ++ ":" }
        .ok (db, bucketSet bucket docname (.dbRec db.Name db.docPfx))

/-- `realDocID(docid) = db.DocPrefix + docid`. -/
def realDocID (db : Database) (docid : String) : String := db.docPfx ++ docid

/-- `UUID() = db.DocPrefix[4 : len(db.DocPrefix)-1]` (Go byte slicing,
modelled on the character list). -/
def dbUUID (db : Database) : String := String.mk ((db.docPfx.data.drop 4).dropLast)

/-! ### The two views of the design document (JavaScript map functions in
database.go), and the bucket's View operation modelled from the spec. -/

/-- JavaScript `String.split(sep)` on a character list: split at every
separator; the empty string yields one empty group. -/
def splitCh (sep : Char) : List Char → List (List Char)
  | [] => [[]]
  | c :: rest =>
      match splitCh sep rest with
      | [] => [[]]
      | g :: gs => if c = sep then [] :: g :: gs else (c :: g) :: gs

/-- JavaScript `s.split(sep)` as Lean strings. A JS `split(sep, n)` is
`(goSplit sep s).take n` (JS truncates, discarding the remainder). -/
def goSplit (sep : Char) (s : String) : List String :=
  (splitCh sep s.data).map String.mk

/-- An element of a view key: the maps emit strings and numbers, and the
query code uses an empty object `{}` as the collation-infinity sentinel. -/
inductive KElem where
  | num (n : Nat) : KElem
  | str (s : String) : KElem
  | objSentinel : KElem
deriving DecidableEq, Repr

/-- A view key is a JSON array of elements. -/
abbrev VKey := List KElem

/-- CouchDB collation on key elements: numbers sort before strings, and
the empty object sorts after both. -/
def cmpKElem : KElem → KElem → Ordering
  | .num a, .num b => compare a b
  | .num _, .str _ => .lt
  | .num _, .objSentinel => .lt
  | .str _, .num _ => .gt
  | .str a, .str b => compare a b
  | .str _, .objSentinel => .lt
  | .objSentinel, .num _ => .gt
  | .objSentinel, .str _ => .gt
  | .objSentinel, .objSentinel => .eq

/-- Collation on view keys: element-wise, a strict prefix sorts first. -/
def cmpVKey : List KElem → List KElem → Ordering
  | [], [] => .eq
  | [], _ :: _ => .lt
  | _ :: _, [] => .gt
  | a :: as, b :: bs =>
      match cmpKElem a b with
      | .eq => cmpVKey as bs
      | o => o

def vkeyLE (a b : List KElem) : Bool :=
  match cmpVKey a b with
  | .gt => false
  | _ => true

/-- View query options, as the `Body` of options the Go code passes:
absent map keys are `none`. -/
structure ViewOpts where
  startkey : Option VKey := none
  endkey : Option VKey := none
  descending : Option Bool := none
  limit : Option Int := none
  reduce : Option Bool := none
deriving DecidableEq, Repr

/-- The `all_docs` map function from installViews:
`pieces = meta.id.split(":", 3); if (pieces.length < 3 || pieces[0] != "doc")
return; emit([pieces[1], pieces[2]], null)`. Returns the emitted key, or
none when the function returns without emitting. The document value is not
consulted. -/
def alldocsMapEmit (key : String) : Option (List KElem) :=
  let pieces := (goSplit ':' key).take 3
  if pieces.length < 3 ∨ pieces.head? ≠ some "doc" then none
  else
    match pieces with
    | _ :: p1 :: p2 :: _ => some [.str p1, .str p2]
    | _ => none

/-- The `changes` map function from installViews: skip records without a
`sequence` field, parse the key the same way, and emit
`([pieces[1], doc.sequence], [current._id, current._rev] (+ true if
current._deleted))`. The value is returned as (id, rev, deleted flag
present). -/
def changesMapEmit (key : String) (v : BVal) : Option (List KElem × (String × String × Bool)) :=
  match v with
  | .docRec d =>
      match d.sequence with
      | none => none
      | some seq =>
          let pieces := (goSplit ':' key).take 3
          if pieces.length < 3 ∨ pieces.head? ≠ some "doc" then none
          else
            match pieces with
            | _ :: p1 :: _ :: _ =>
                some ([.str p1, .num seq], (d.curId, d.curRev, d.curDeleted))
            | _ => none
  | _ => none

/-- Insertion into a key-sorted list of rows (row ordered by its key under
the view collation). -/
def insertRow {α : Type} (keyOf : α → List KElem) (r : α) : List α → List α
  | [] => [r]
  | x :: xs =>
      if vkeyLE (keyOf r) (keyOf x) then r :: x :: xs
      else x :: insertRow keyOf r xs

def sortRows {α : Type} (keyOf : α → List KElem) : List α → List α
  | [] => []
  | x :: xs => insertRow keyOf x (sortRows keyOf xs)

def inKeyRange (opts : ViewOpts) (k : List KElem) : Bool :=
  (match opts.startkey with
   | none => true
   | some s => vkeyLE s k) &&
  (match opts.endkey with
   | none => true
   | some e => vkeyLE k e)

/-- Modelled from the spec: `View(design, name, opts)` evaluates the
installed map function over every stored record and returns the emitted
rows in key order, restricted to `[startkey, endkey]`, reversed when
`descending`, truncated to `limit`. Here instantiated with the `all_docs`
map (non-reduced), the only view the code in src evaluates over a bucket. -/
def runAllDocsView (bucket : Bucket) (opts : ViewOpts) : List (List KElem) :=
  let rows := (bucket.map Prod.fst).filterMap alldocsMapEmit
  let rows := sortRows (fun k => k) rows
  let rows := rows.filter (inKeyRange opts)
  let rows := if opts.descending = some true then rows.reverse else rows
  match opts.limit with
  | some l => rows.take l.toNat
  | none => rows

/-- `allDocIDsOpts(reduce)` from database.go:
`startkey = [uuid]`, `endkey = [uuid, {}]`, `reduce = reduce`. -/
def allDocIDsOpts (db : Database) (reduce : Bool) : ViewOpts :=
  { startkey := some [.str (dbUUID db)],
    endkey := some [.str (dbUUID db), .objSentinel],
    reduce := some reduce }

/-- The Go type assertion `key[1].(string)` on an all_docs row key; the
emitted keys of that view are always `[str, str]` pairs, on which the
assertion cannot fail. -/
def keyElem1Str (k : List KElem) : String :=
  match k.get? 1 with
  | some (.str s) => s
  | _ => ""

/-- `AllDocIDs()` from database.go: query `all_docs` with
`allDocIDsOpts(false)` and return `key[1].(string)` of every row. In this
model the view evaluation is total, so the error return is always nil. -/
def AllDocIDs (bucket : Bucket) (db : Database) : List String :=
  (runAllDocsView bucket (allDocIDsOpts db false)).map keyElem1Str

/-- `sequenceDocID() = dbInternalDocName(db.Name) + ":nextsequence"`. -/
def sequenceDocID (db : Database) : String := dbInternalDocName db.Name ++ ":nextsequence"

/-- `Database.Delete()` from database.go: enumerate `AllDocIDs`, delete the
database record (propagating its error), then delete the sequence counter
and each enumerated docid, ignoring those errors. Note that the loop passes
the bare docid to `bucket.Delete`, not `realDocID(docid)`. -/
def databaseDelete (bucket : Bucket) (db : Database) : Except GoError Bucket :=
  let docIDs := AllDocIDs bucket db
  match bucketDelete bucket (dbInternalDocName db.Name) with
  | .error e => .error e
  | .ok b1 =>
      let b2 := bucketDeleteQuiet b1 (sequenceDocID db)
      .ok (docIDs.foldl bucketDeleteQuiet b2)

/-! ### Sequences -/

/-- Modelled from the spec (4.1): `Incr(key, delta, initial, expiry) →
uint64` is an atomic counter; if the key does not exist and `delta > 0` it
is set to `initial` (and `initial` is returned); if `delta == 0` it returns
the current value without mutation, and errors if the key is absent. A
non-counter value at the key is a K/V error. Arithmetic is uint64, hence
the `% 2^64`. Returns the counter value and the (possibly updated) bucket. -/
def bucketIncr (b : Bucket) (k : String) (delta initAt : Nat) :
    Except GoError (Nat × Bucket) :=
  match bucketLookup b k with
  | some (.counter n) =>
      if delta = 0 then .ok (n, b)
      else
        let m := (n + delta) % 2 ^ 64
        .ok (m, bucketSet b k (.counter m))
  | some _ => .error (.mc 6)
  | none =>
      if delta > 0 then .ok (initAt, bucketSet b k (.counter initAt))
      else .error (.mc kKEY_ENOENT)

/-- `LastSequence() = bucket.Incr(db.sequenceDocID(), 0, 0, 0)`. -/
def LastSequence (bucket : Bucket) (db : Database) : Except GoError (Nat × Bucket) :=
  bucketIncr bucket (sequenceDocID db) 0 0

/-- `generateSequence() = bucket.Incr(db.sequenceDocID(), 1, 1, 0)`. -/
def generateSequence (bucket : Bucket) (db : Database) : Except GoError (Nat × Bucket) :=
  bucketIncr bucket (sequenceDocID db) 1 1

/-! ### The changes feed -/

/-- `ChangesOptions{Since uint64, Limit int, Descending bool}`. -/
structure ChangesOptions where
  Since : Nat
  Limit : Int
  Descending : Bool
deriving DecidableEq, Repr

/-- A row of the `changes` view as GetChanges consumes it: the Go code
asserts the row key to be `[uuid(string), seq(float64)]` and the row value
to be `[id(string), rev(string)]` optionally followed by a third boolean
element; those assertions cannot fail on rows emitted by the `changes` map. -/
structure ChRow where
  keyUuid : String
  keySeq : Nat
  valId : String
  valRev : String
  valThird : Option Bool
deriving DecidableEq, Repr

/-- `ChangeEntry{Seq, ID, Changes []ChangeRev, Deleted}` with
`ChangeRev = map[string]string`. -/
structure ChangeEntry where
  Seq : Nat
  ID : String
  Changes : List (List (String × String))
  Deleted : Bool
deriving DecidableEq, Repr

/-- The view options GetChanges builds: `startkey = [uuid, since+1]` (uint64
addition), `endkey = [uuid, {}]`, `descending` always set, and `limit` set
only when `options.Limit > 0`. -/
def changesViewOpts (db : Database) (o : ChangesOptions) : ViewOpts :=
  { startkey := some [.str (dbUUID db), .num ((o.Since + 1) % 2 ^ 64)],
    endkey := some [.str (dbUUID db), .objSentinel],
    descending := some o.Descending,
    limit := if 0 < o.Limit then some o.Limit else none }

/-- The loop body of GetChanges: `Seq = key[1]`, `ID = value[0]`,
`Changes = [{"rev": value[1]}]`, `Deleted = len(value) >= 3 && value[2].(bool)`. -/
def changesRowEntry (row : ChRow) : ChangeEntry :=
  { Seq := row.keySeq,
    ID := row.valId,
    Changes := [[("rev", row.valRev)]],
    Deleted := match row.valThird with
               | some b => b
               | none => false }

/-- `GetChanges(options)` from database.go, parameterised by the bucket's
view evaluation (the `changes` view is computed by the external server;
`view opts` stands for `bucket.View("couchdb", "changes", opts).Rows`). -/
def GetChanges (db : Database) (o : ChangesOptions)
    (view : ViewOpts → List ChRow) : List ChangeEntry :=
  (view (changesViewOpts db o)).map changesRowEntry

/-- The claim's words for the options GetChanges passes: startkey
`[uuid, since+1]`, endkey `[uuid, {}]`, the descending flag, and the limit
(unconditionally). -/
def getChangesClaimOpts (db : Database) (o : ChangesOptions) : ViewOpts :=
  { startkey := some [.str (dbUUID db), .num ((o.Since + 1) % 2 ^ 64)],
    endkey := some [.str (dbUUID db), .objSentinel],
    descending := some o.Descending,
    limit := some o.Limit }

/-- The claim's words for the entry a row maps to: `{seq, id,
changes: [{rev}], deleted}` with deleted true exactly when the row value
has a third element equal to true. -/
def claimChangesEntry (row : ChRow) : ChangeEntry :=
  { Seq := row.keySeq,
    ID := row.valId,
    Changes := [[("rev", row.valRev)]],
    Deleted := decide (row.valThird = some true) }

/-! ### Utilities of database.go and rest.go -/

/-- `ErrorAsHTTPStatus(err)` from database.go: 200 for nil, an HTTPError's
own status, 404 for KEY_ENOENT, 409 (http.StatusConflict) for KEY_EEXISTS,
502 for any other memcached status, 500 otherwise. -/
def ErrorAsHTTPStatus : Option GoError → Int × String
  | none => (200, "OK")
  | some (.httpError s m) => (s, m)
  | some (.mc s) =>
      if s = kKEY_ENOENT then (404, "Not Found")
      else if s = kKEY_EEXISTS then (409, "Conflict")
      else (502, "MC status " ++ toString s)
  | some (.otherErr d) => (500, "Internal error: " ++ d)

/-- Result of `parseRevisions`: the Go function returns a `[]string` slice,
returns nil, or panics on a failed type assertion
(`revisions["start"].(float64)` / `revisions["ids"].([]interface{})`). -/
inductive ParseResult where
  | okRes (revids : List String) : ParseResult
  | nilRes : ParseResult
  | panicRes : ParseResult
deriving DecidableEq, Repr

mutual

/-- Go's `fmt` `%v` rendering of a decoded JSON value (nil, bools, numbers,
strings, slices, maps). Map keys print in the stored order here. -/
def goVerbV : JVal → String
  | .null => "<nil>"
  | .bool b => toString b
  | .num n => toString n
  | .str s => s
  | .arr l => "[" ++ String.intercalate " " (goVerbVList l) ++ "]"
  | .obj l => "map[" ++ String.intercalate " " (goVerbVPairs l) ++ "]"

def goVerbVList : List JVal → List String
  | [] => []
  | v :: vs => goVerbV v :: goVerbVList vs

def goVerbVPairs : List (String × JVal) → List String
  | [] => []
  | (k, v) :: vs => (k ++ ":" ++ goVerbV v) :: goVerbVPairs vs

end

/-- Go's `fmt` `%s` rendering of an `interface{}`: a string prints itself;
non-string scalars print as `%!s(type=value)`; composites fall back to the
`%v` form. Only the string case is ever reached from wire-format input. -/
def goVerbS : JVal → String
  | .str s => s
  | .null => "<nil>"
  | .bool b => "%!s(bool=" ++ toString b ++ ")"
  | .num n => "%!s(float64=" ++ toString n ++ ")"
  | .arr l => goVerbV (.arr l)
  | .obj l => goVerbV (.obj l)

/-- The loop of parseRevisions: `fmt.Sprintf("%d-%s", start, id)` for each
id, decrementing `start` after each element. -/
def buildRevIds : Int → List JVal → List String
  | _, [] => []
  | start, id :: rest => (toString start ++ "-" ++ goVerbS id) :: buildRevIds (start - 1) rest

/-- `parseRevisions(body)` from rest.go: the `_revisions` property must be
an object (comma-ok assertion; nil otherwise), `start` a number and `ids`
an array (plain assertions; panic otherwise), and `start >= len(ids)`
(nil otherwise). -/
def parseRevisions (body : Body) : ParseResult :=
  match bodyGet body "_revisions" with
  | some (.obj revisions) =>
      match List.lookup "start" revisions with
      | some (.num start) =>
          match List.lookup "ids" revisions with
          | some (.arr ids) =>
              if start < (ids.length : Int) then .nilRes
              else .okRes (buildRevIds start ids)
          | _ => .panicRes
      | _ => .panicRes
  | _ => .nilRes

/-- The claim's words for the parsed list: one revid per id, starting at
generation `n` and decreasing by one. -/
def claimRevIds : Int → List String → List String
  | _, [] => []
  | n, h :: t => (toString n ++ "-" ++ h) :: claimRevIds (n - 1) t

/-- The parts of an `*http.Request` that readJSONInto consults: the
Content-Type header ("" when unset) and the result of reading the body
(`none` models an ioutil.ReadAll error). -/
structure GoRequest where
  contentType : String
  bodyBytes : Option String
deriving DecidableEq, Repr

/-- `readJSONInto(rq, into)` from rest.go, with `json.Unmarshal` into the
caller's shape passed as the function `unmarshal` (`none` models a decode
error). -/
def readJSONInto {α : Type} (rq : GoRequest) (unmarshal : String → Option α) :
    Except GoError α :=
  if rq.contentType ≠ "" ∧ rq.contentType ≠ "application/json" then
    .error (.httpError 406 ("Invalid content type " ++ rq.contentType))
  else
    match rq.bodyBytes with
    | none => .error (.httpError 400 "")
    | some bytes =>
        match unmarshal bytes with
        | none => .error (.httpError 400 "Bad JSON")
        | some v => .ok v

/-! ### HandlePutDoc, as a trace of response-writer actions and engine calls -/

/-- One observable step of a handler: setting a response header, writing a
status line, writing a JSON payload, invoking `db.PutExistingRev` (with the
revisions slice it was passed), or panicking. -/
inductive RAct where
  | setHeader (name value : String) : RAct
  | writeHeader (status : Int) : RAct
  | writeJSONVal (v : JVal) : RAct
  | callPutExistingRev (docid : String) (revisions : Option (List String)) : RAct
  | panicked : RAct

/-- `writeError(err, r)` from rest.go: nothing for a nil error, otherwise
`WriteHeader(status)` then the `{"error": status, "reason": message}` body. -/
def writeErrorActs (err : Option GoError) : List RAct :=
  match err with
  | none => []
  | some e =>
      let sm := ErrorAsHTTPStatus (some e)
      [.writeHeader sm.1,
       .writeJSONVal (.obj [("error", .num sm.1), ("reason", .str sm.2)])]

/-- The nil-ness of a Go `[]string` result: `okRes l` is the non-nil slice,
everything else is nil. -/
def parseToOption : ParseResult → Option (List String)
  | .okRes l => some l
  | _ => none

/-- `HandlePutDoc(r, rq, docid)` from rest.go. Inputs: the value of the
`new_edits` query parameter ("" when absent), the result of `readJSON(rq)`,
and the outcomes of the engine calls `db.Put` (newRev or error) and
`db.PutExistingRev` (error or nil, as a function of the revisions slice
passed). Note the missing `return` after the Bad-Revisions writeError, and
the unconditional `WriteHeader(201)` at the end of the function. -/
def HandlePutDoc (docid : String) (newEditsQ : String)
    (bodyRes : Except GoError Body)
    (putFn : Body → Except GoError String)
    (perFn : Option (List String) → Option GoError) : List RAct :=
  match bodyRes with
  | .error e => writeErrorActs (some e)
  | .ok body =>
      if newEditsQ ≠ "false" then
        match putFn body with
        | .error e => writeErrorActs (some e)
        | .ok newRev =>
            [.setHeader "Etag" newRev,
             .writeJSONVal (.obj [("ok", .bool true), ("id", .str docid), ("rev", .str newRev)]),
             .writeHeader 201]
      else
        match parseRevisions body with
        | .panicRes => [.panicked]
        | pr =>
            (if pr = .nilRes then
              writeErrorActs (some (.httpError 400 "Bad _revisions"))
            else []) ++
            [.callPutExistingRev docid (parseToOption pr)] ++
            writeErrorActs (perFn (parseToOption pr)) ++
            [.writeHeader 201]

/-! ## Helper lemmas -/

theorem splitCh_ne_nil (sep : Char) (l : List Char) : splitCh sep l ≠ [] := by
  cases l with
  | nil => simp [splitCh]
  | cons c cs =>
      simp only [splitCh]
      cases splitCh sep cs with
      | nil => simp
      | cons g gs =>
          by_cases hc : c = sep <;> simp [hc]

theorem splitCh_of_not_mem {sep : Char} {l : List Char} (h : sep ∉ l) :
    splitCh sep l = [l] := by
  induction l with
  | nil => rfl
  | cons c cs ih =>
      rw [List.mem_cons] at h
      push_neg at h
      simp only [splitCh, ih h.2]
      simp [Ne.symm h.1]

theorem splitCh_append {sep : Char} {b : List Char} (a : List Char) (h : sep ∉ a) :
    splitCh sep (a ++ sep :: b) = a :: splitCh sep b := by
  induction a with
  | nil =>
      simp only [List.nil_append, splitCh]
      cases hb : splitCh sep b with
      | nil => exact absurd hb (splitCh_ne_nil sep b)
      | cons g gs => simp
  | cons c cs ih =>
      rw [List.mem_cons] at h
      push_neg at h
      simp only [List.cons_append, splitCh, List.append_eq]
      rw [ih h.2]
      simp [Ne.symm h.1]

theorem changesRowEntry_eq_claimChangesEntry (r : ChRow) :
    changesRowEntry r = claimChangesEntry r := by
  cases r with
  | mk u s i v t =>
      cases t with
      | none => rfl
      | some b => cases b <;> rfl

theorem dbUUID_of_create (nm name uuid : String) :
    dbUUID { Name := nm, docPfx := "doc:" ++ name ++ "/" ++ uuid ++ ":" } =
      name ++ "/" ++ uuid := by
  have key : ((("doc:" ++ name ++ "/" ++ uuid ++ ":").data).drop 4).dropLast =
      (name ++ "/" ++ uuid).data := by
    simp only [String.data_append, List.append_assoc]
    have h4 : (4 : Nat) = ['d', 'o', 'c', ':'].length := rfl
    rw [h4, List.drop_left]
    have : name.data ++ (['/'] ++ (uuid.data ++ [':'])) =
        (name.data ++ (['/'] ++ uuid.data)) ++ [':'] := by
      simp [List.append_assoc]
    rw [this, List.dropLast_concat]
  exact String.ext key

/-! ## Claim theorems -/

/-- C7 (counterexample): the claim says a K/V already-exists error maps to
HTTP status 412; ErrorAsHTTPStatus maps the memcached KEY_EEXISTS status to
409 Conflict instead. -/
theorem C7_eexists_counterexample :
    (ErrorAsHTTPStatus (some (.mc kKEY_EEXISTS))).1 ≠ 412 ∧
    ErrorAsHTTPStatus (some (.mc kKEY_EEXISTS)) = (409, "Conflict") := by
  constructor
  · decide
  · rfl

/-- C7 (amended): ErrorAsHTTPStatus maps a nil error to 200, KEY_ENOENT to
404, KEY_EEXISTS to 409 (Conflict), any other memcached status to 502, an
HTTPError to its own status, and any unrecognized error to 500. -/
theorem C7_error_mapping_amended :
    ErrorAsHTTPStatus none = (200, "OK")
    ∧ (∀ (s : Int) (m : String), ErrorAsHTTPStatus (some (.httpError s m)) = (s, m))
    ∧ ErrorAsHTTPStatus (some (.mc kKEY_ENOENT)) = (404, "Not Found")
    ∧ ErrorAsHTTPStatus (some (.mc kKEY_EEXISTS)) = (409, "Conflict")
    ∧ (∀ s : Nat, s ≠ kKEY_ENOENT → s ≠ kKEY_EEXISTS →
        ErrorAsHTTPStatus (some (.mc s)) = (502, "MC status " ++ toString s))
    ∧ (∀ d : String, ErrorAsHTTPStatus (some (.otherErr d)) = (500, "Internal error: " ++ d)) := by
  refine ⟨rfl, fun s m => rfl, rfl, rfl, fun s h1 h2 => ?_, fun d => rfl⟩
  simp [ErrorAsHTTPStatus, h1, h2]

/-- C7 (witness for the amended theorem): the conditional cases at concrete
inputs. -/
theorem C7_error_mapping_amended_witness :
    ErrorAsHTTPStatus (some (.httpError 418 "teapot")) = (418, "teapot")
    ∧ ((5 : Nat) ≠ kKEY_ENOENT ∧ (5 : Nat) ≠ kKEY_EEXISTS
       ∧ ErrorAsHTTPStatus (some (.mc 5)) = (502, "MC status 5")) := by
  refine ⟨C7_error_mapping_amended.2.1 418 "teapot", by decide, by decide, ?_⟩
  have h := C7_error_mapping_amended.2.2.2.2.1 5 (by decide) (by decide)
  rw [h]
  decide

/-- C8: a request whose Content-Type is non-empty and not application/json
is rejected by readJSONInto with a 406 HTTPError, for every body and every
unmarshal function (so the body is never decoded); a request with an empty
or application/json Content-Type is never rejected with a 406. -/
theorem C8_readJSONInto_content_type {α : Type} (ct : String) :
    (ct ≠ "" → ct ≠ "application/json" →
      ∀ (bodyB : Option String) (um : String → Option α),
        readJSONInto { contentType := ct, bodyBytes := bodyB } um =
          .error (.httpError 406 ("Invalid content type " ++ ct)))
    ∧ (ct = "" ∨ ct = "application/json" →
      ∀ (bodyB : Option String) (um : String → Option α) (m : String),
        readJSONInto { contentType := ct, bodyBytes := bodyB } um ≠
          .error (.httpError 406 m)) := by
  constructor
  · intro h1 h2 bodyB um
    simp [readJSONInto, h1, h2]
  · intro h bodyB um m
    have hcond : ¬(ct ≠ "" ∧ ct ≠ "application/json") := by
      rcases h with h | h <;> simp [h]
    simp only [readJSONInto, if_neg hcond]
    cases bodyB with
    | none => simp
    | some bytes =>
        cases hub : um bytes with
        | none => simp [hub]
        | some v => simp [hub]

/-- C8 (witness): a text/plain request is rejected with 406 regardless of
its body, and an application/json request is not. -/
theorem C8_readJSONInto_content_type_witness :
    readJSONInto { contentType := "text/plain", bodyBytes := some "not json" }
        (fun _ => (none : Option Body)) =
      .error (.httpError 406 "Invalid content type text/plain")
    ∧ readJSONInto { contentType := "application/json", bodyBytes := some "x" }
        (fun _ => (none : Option Body)) ≠
      .error (.httpError 406 "Invalid content type application/json") := by
  constructor
  · exact (C8_readJSONInto_content_type "text/plain").1 (by decide) (by decide)
      (some "not json") (fun _ => none)
  · exact (C8_readJSONInto_content_type "application/json").2 (Or.inr rfl)
      (some "x") (fun _ => none) "Invalid content type application/json"

theorem buildRevIds_strs (hs : List String) : ∀ n : Int,
    buildRevIds n (hs.map JVal.str) = claimRevIds n hs := by
  induction hs with
  | nil => intro n; rfl
  | cons h t ih => intro n; simp [buildRevIds, claimRevIds, goVerbS, ih]

/-- C6: parseRevisions maps `{start: n, ids: [h0, h1, ...]}` with
`n >= len(ids)` to `["n-h0", "(n-1)-h1", ...]`, and returns nil when
`_revisions` is absent, when it is not an object, and when
`start < len(ids)`. -/
theorem C6_parseRevisions (body : Body) (revisions : List (String × JVal))
    (n : Int) (hs : List String)
    (h1 : bodyGet body "_revisions" = some (.obj revisions))
    (h2 : List.lookup "start" revisions = some (.num n))
    (h3 : List.lookup "ids" revisions = some (.arr (hs.map JVal.str)))
    (h4 : (hs.length : Int) ≤ n) :
    parseRevisions body = .okRes (claimRevIds n hs)
    ∧ (∀ b : Body, bodyGet b "_revisions" = none → parseRevisions b = .nilRes)
    ∧ (∀ (b : Body) (v : JVal), bodyGet b "_revisions" = some v →
        (∀ l, v ≠ .obj l) → parseRevisions b = .nilRes)
    ∧ (∀ (b : Body) (r : List (String × JVal)) (m : Int) (ids : List JVal),
        bodyGet b "_revisions" = some (.obj r) →
        List.lookup "start" r = some (.num m) →
        List.lookup "ids" r = some (.arr ids) →
        m < (ids.length : Int) → parseRevisions b = .nilRes) := by
  refine ⟨?_, ?_, ?_, ?_⟩
  · have hlt : ¬ n < ((hs.length : Int)) := by omega
    simp only [parseRevisions, h1, h2, h3, List.length_map]
    rw [if_neg hlt, buildRevIds_strs]
  · intro b hb
    simp only [parseRevisions]
    rw [hb]
  · intro b v hb hv
    simp only [parseRevisions]
    rw [hb]
    cases v with
    | obj l => exact absurd rfl (hv l)
    | null => rfl
    | bool x => rfl
    | num x => rfl
    | str x => rfl
    | arr x => rfl
  · intro b r m ids hb hstart hids hlt
    simp only [parseRevisions, hb, hstart, hids]
    rw [if_pos hlt]

/-- C6 (witness): a concrete `_revisions` object with start 2 and two ids. -/
theorem C6_parseRevisions_witness :
    parseRevisions
        [("_revisions", .obj [("start", .num 2), ("ids", .arr [.str "a", .str "b"])])] =
      .okRes ["2-a", "1-b"] := by
  have h := (C6_parseRevisions
    [("_revisions", .obj [("start", .num 2), ("ids", .arr [.str "a", .str "b"])])]
    [("start", JVal.num 2), ("ids", JVal.arr [JVal.str "a", JVal.str "b"])]
    2 ["a", "b"] rfl rfl rfl (by decide)).1
  rw [h]
  decide

/-- C10: with `new_edits=false` and a body whose `_revisions` fails to
parse, HandlePutDoc writes a 400 error but does not return — it still calls
PutExistingRev with a nil revisions slice — and every `new_edits=false`
path (panics aside) writes status 201 at the end. -/
theorem C10_handleputdoc (docid : String) (body : Body)
    (putFn : Body → Except GoError String)
    (perFn : Option (List String) → Option GoError)
    (h : parseRevisions body = .nilRes) :
    HandlePutDoc docid "false" (.ok body) putFn perFn =
      [.writeHeader 400,
       .writeJSONVal (.obj [("error", .num 400), ("reason", .str "Bad _revisions")]),
       .callPutExistingRev docid none] ++
      writeErrorActs (perFn none) ++ [.writeHeader 201]
    ∧ (∀ (b : Body) (pf : Body → Except GoError String)
         (pe : Option (List String) → Option GoError),
        parseRevisions b ≠ .panicRes →
        (HandlePutDoc docid "false" (.ok b) pf pe).getLast? =
          some (.writeHeader 201)) := by
  constructor
  · simp [HandlePutDoc, h, writeErrorActs, ErrorAsHTTPStatus, parseToOption]
  · intro b pf pe hnp
    simp only [HandlePutDoc]
    rw [if_neg (by simp)]
    cases hpr : parseRevisions b with
    | panicRes => exact absurd hpr hnp
    | nilRes => simp only [← List.append_assoc, List.getLast?_concat]
    | okRes l => simp only [← List.append_assoc, List.getLast?_concat]

/-- C10 (witness): the empty body (no `_revisions`) at a concrete docid,
with PutExistingRev succeeding. -/
theorem C10_handleputdoc_witness :
    parseRevisions ([] : Body) = .nilRes
    ∧ HandlePutDoc "d" "false" (.ok ([] : Body)) (fun _ => .ok "1-x") (fun _ => none) =
      [.writeHeader 400,
       .writeJSONVal (.obj [("error", .num 400), ("reason", .str "Bad _revisions")]),
       .callPutExistingRev "d" none, .writeHeader 201] := by
  refine ⟨rfl, ?_⟩
  have h := (C10_handleputdoc "d" ([] : Body) (fun _ => .ok "1-x") (fun _ => none) rfl).1
  exact h

/-- C1 (code bug): the validation regexp is unanchored, so a name
containing characters outside the permitted set is accepted as long as one
character is inside it. At name "a!" (the '!' is outside the class) neither
CreateDatabase nor GetDatabase fails with 400: CreateDatabase on an empty
bucket succeeds and writes the key cdb:a!, and GetDatabase reads it. -/
theorem C1_illegal_name_not_rejected :
    isDBNameChar '!' = false
    ∧ kDBNameMatchString "a!" = true
    ∧ CreateDatabase [] "a!" "u0" =
        .ok ({ Name := "a!", docPfx := "doc:a!/u0:" },
             [("cdb:a!", .dbRec "a!" "doc:a!/u0:")])
    ∧ GetDatabase [("cdb:a!", BVal.dbRec "a!" "doc:a!/u0:")] "a!" =
        .ok { Name := "a!", docPfx := "doc:a!/u0:" }
    ∧ GetDatabase [] "a!" = .error (.mc kKEY_ENOENT) :=
  ⟨rfl, rfl, rfl, rfl, rfl⟩

/-- C2 (code bug): deleting the database "db" (uuid "u") holding one
document stored at key "doc:db/u:foo" removes the database record and the
sequence counter, but the loop deletes the bare docid "foo" rather than
docPrefix+docid, so the document record survives in the bucket. -/
theorem C2_delete_misses_doc_records :
    AllDocIDs
        [("cdb:db", .dbRec "db" "doc:db/u:"),
         ("cdb:db:nextsequence", .counter 3),
         ("doc:db/u:foo", .docRec ⟨some 1, "foo", "1-abc", false⟩)]
        { Name := "db", docPfx := "doc:db/u:" } = ["foo"]
    ∧ databaseDelete
        [("cdb:db", .dbRec "db" "doc:db/u:"),
         ("cdb:db:nextsequence", .counter 3),
         ("doc:db/u:foo", .docRec ⟨some 1, "foo", "1-abc", false⟩)]
        { Name := "db", docPfx := "doc:db/u:" } =
      .ok [("doc:db/u:foo", .docRec ⟨some 1, "foo", "1-abc", false⟩)] :=
  ⟨rfl, rfl⟩

/-- C4 (counterexample): on a bucket where the sequence counter key has
never been written, LastSequence propagates the adapter's error for an
absent key instead of returning zero (spec 4.1: Incr with delta 0 errors
when the key is absent). -/
theorem C4_lastsequence_counterexample :
    LastSequence [] { Name := "db", docPfx := "doc:db/u:" } = .error (.mc kKEY_ENOENT)
    ∧ LastSequence [] { Name := "db", docPfx := "doc:db/u:" } ≠ .ok (0, []) :=
  ⟨rfl, fun h => nomatch h⟩

/-- C4 (amended): LastSequence returns the current counter value without
mutating the bucket, and returns the not-found error (not zero) when the
counter key has never been written. -/
theorem C4_lastsequence_amended (bucket : Bucket) (db : Database) (n : Nat) :
    (bucketLookup bucket (sequenceDocID db) = some (.counter n) →
      LastSequence bucket db = .ok (n, bucket))
    ∧ (bucketLookup bucket (sequenceDocID db) = none →
      LastSequence bucket db = .error (.mc kKEY_ENOENT)) := by
  constructor
  · intro h
    simp [LastSequence, bucketIncr, h]
  · intro h
    simp [LastSequence, bucketIncr, h]

/-- C4 (witness for the amended theorem): a counter holding 5 is returned
unchanged, bucket untouched. -/
theorem C4_lastsequence_amended_witness :
    bucketLookup [("cdb:db:nextsequence", BVal.counter 5)]
        (sequenceDocID { Name := "db", docPfx := "doc:db/u:" }) = some (.counter 5)
    ∧ LastSequence [("cdb:db:nextsequence", BVal.counter 5)]
        { Name := "db", docPfx := "doc:db/u:" } =
      .ok (5, [("cdb:db:nextsequence", BVal.counter 5)]) :=
  ⟨rfl, (C4_lastsequence_amended [("cdb:db:nextsequence", BVal.counter 5)]
      { Name := "db", docPfx := "doc:db/u:" } 5).1 rfl⟩

/-- C5: for a name passing validation, CreateDatabase fails with 412 when a
database record already sits at cdb:name, and otherwise writes a record
whose docPrefix is "doc:"+name+"/"+uuid+":" and returns the handle carrying
that name and docPrefix. -/
theorem C5_createdatabase (bucket : Bucket) (name uuid : String)
    (hname : dbInternalDocName name ≠ "") :
    (∀ n p, bucketLookup bucket ("cdb:" ++ name) = some (.dbRec n p) →
      CreateDatabase bucket name uuid = .error (.httpError 412 "Database already exists"))
    ∧ (bucketLookup bucket ("cdb:" ++ name) = none →
      CreateDatabase bucket name uuid =
        .ok ({ Name := name, docPfx := "doc:" ++ name ++ "/" ++ uuid ++ ":" },
          bucketSet bucket ("cdb:" ++ name)
            (.dbRec name ("doc:" ++ name ++ "/" ++ uuid ++ ":")))) := by
  have hm : dbInternalDocName name = "cdb:" ++ name := by
    by_cases hk : kDBNameMatchString name = true
    · simp [dbInternalDocName, hk]
    · exact absurd (by simp [dbInternalDocName, hk]) hname
  have hne : "cdb:" ++ name ≠ "" := by
    intro h
    have hd := congrArg String.data h
    rw [String.data_append] at hd
    simp at hd
  constructor
  · intro n p hl
    simp [CreateDatabase, hm, hne, bucketGetDb, hl, decodeAsDatabase]
  · intro hl
    simp [CreateDatabase, hm, hne, bucketGetDb, hl]

/-- C5 (witness): creating "db" with uuid "u" on an empty bucket, and the
412 on a second create of the same name. -/
theorem C5_createdatabase_witness :
    dbInternalDocName "db" ≠ ""
    ∧ CreateDatabase [] "db" "u" =
        .ok ({ Name := "db", docPfx := "doc:db/u:" },
             [("cdb:db", .dbRec "db" "doc:db/u:")])
    ∧ CreateDatabase [("cdb:db", BVal.dbRec "db" "doc:db/u:")] "db" "u2" =
        .error (.httpError 412 "Database already exists") := by
  refine ⟨by decide, ?_, ?_⟩
  · exact (C5_createdatabase [] "db" "u" (by decide)).2 rfl
  · exact (C5_createdatabase [("cdb:db", BVal.dbRec "db" "doc:db/u:")] "db" "u2"
      (by decide)).1 "db" "doc:db/u:" rfl

/-- C3 (counterexample): at Limit = 0 the code omits the limit key from the
view options, while the claim's options always carry it; a view function
that distinguishes the two shows GetChanges diverging from the claim's
description of the query. -/
theorem C3_limit_counterexample :
    changesViewOpts { Name := "db", docPfx := "doc:db/u:" } ⟨0, 0, false⟩ ≠
      getChangesClaimOpts { Name := "db", docPfx := "doc:db/u:" } ⟨0, 0, false⟩
    ∧ (changesViewOpts { Name := "db", docPfx := "doc:db/u:" } ⟨0, 0, false⟩).limit = none
    ∧ (getChangesClaimOpts { Name := "db", docPfx := "doc:db/u:" } ⟨0, 0, false⟩).limit = some 0
    ∧ GetChanges { Name := "db", docPfx := "doc:db/u:" } ⟨0, 0, false⟩
        (fun opts => if opts.limit = some 0 then [⟨"db/u", 1, "x", "1-a", none⟩] else []) = []
    ∧ ((fun (opts : ViewOpts) =>
         if opts.limit = some 0 then [(⟨"db/u", 1, "x", "1-a", none⟩ : ChRow)] else [])
        (getChangesClaimOpts { Name := "db", docPfx := "doc:db/u:" } ⟨0, 0, false⟩)).map
        claimChangesEntry =
      [claimChangesEntry ⟨"db/u", 1, "x", "1-a", none⟩] :=
  ⟨by decide, rfl, rfl, rfl, rfl⟩

/-- C3 (amended): GetChanges queries the changes view with
startkey=[uuid, since+1] and endkey=[uuid, {}], passing descending, and
passing the limit exactly when it is positive; each returned row maps to
the entry the claim describes, with deleted true exactly when the row value
has a third element equal to true. -/
theorem C3_getchanges_amended (db : Database) (o : ChangesOptions)
    (view : ViewOpts → List ChRow) :
    GetChanges db o view =
      (view { getChangesClaimOpts db o with
                limit := if 0 < o.Limit then some o.Limit else none }).map
        claimChangesEntry
    ∧ (∀ r : ChRow, (changesRowEntry r).Deleted = true ↔ r.valThird = some true) := by
  constructor
  · have hopts : changesViewOpts db o =
        { getChangesClaimOpts db o with
            limit := if 0 < o.Limit then some o.Limit else none } := rfl
    have hmap : changesRowEntry = claimChangesEntry :=
      funext changesRowEntry_eq_claimChangesEntry
    unfold GetChanges
    rw [hopts, hmap]
  · intro r
    rw [changesRowEntry_eq_claimChangesEntry r]
    simp [claimChangesEntry]

/-- C9 (counterexample): for a docid containing a colon, realDocID does not
split on ':' into ["doc", UUID(), docid] — the view maps see a truncated
docid instead. -/
theorem C9_colon_docid_counterexample :
    CreateDatabase [] "db" "u" =
      .ok ({ Name := "db", docPfx := "doc:db/u:" },
           [("cdb:db", .dbRec "db" "doc:db/u:")])
    ∧ dbUUID { Name := "db", docPfx := "doc:db/u:" } = "db/u"
    ∧ goSplit ':' (realDocID { Name := "db", docPfx := "doc:db/u:" } "x:y") =
        ["doc", "db/u", "x", "y"]
    ∧ (goSplit ':' (realDocID { Name := "db", docPfx := "doc:db/u:" } "x:y")).take 3 ≠
        ["doc", dbUUID { Name := "db", docPfx := "doc:db/u:" }, "x:y"] :=
  ⟨rfl, rfl, by decide, by decide⟩

/-- C9 (amended): a handle created by CreateDatabase with name n and uuid u
has UUID() = n + "/" + u (not the bare uuid), and that value is the first
element of the startkey/endkey ranges of allDocIDsOpts and GetChanges; when
n, u and the docid contain no colon, realDocID(docid) splits on ':' into
["doc", UUID(), docid] and both view maps emit UUID() as the first key
component. -/
theorem C9_uuid_amended (bucket : Bucket) (name uuid : String)
    (db : Database) (bucket' : Bucket)
    (hc : CreateDatabase bucket name uuid = .ok (db, bucket')) :
    dbUUID db = name ++ "/" ++ uuid
    ∧ (∀ r : Bool, (allDocIDsOpts db r).startkey = some [.str (dbUUID db)]
        ∧ (allDocIDsOpts db r).endkey = some [.str (dbUUID db), .objSentinel])
    ∧ (∀ o : ChangesOptions,
        (changesViewOpts db o).startkey =
          some [.str (dbUUID db), .num ((o.Since + 1) % 2 ^ 64)]
        ∧ (changesViewOpts db o).endkey = some [.str (dbUUID db), .objSentinel])
    ∧ (':' ∉ name.data → ':' ∉ uuid.data → ∀ d : String, ':' ∉ d.data →
        goSplit ':' (realDocID db d) = ["doc", dbUUID db, d]
        ∧ alldocsMapEmit (realDocID db d) = some [.str (dbUUID db), .str d]
        ∧ (∀ (rec : DocRecord) (s : Nat), rec.sequence = some s →
            changesMapEmit (realDocID db d) (.docRec rec) =
              some ([.str (dbUUID db), .num s],
                    (rec.curId, rec.curRev, rec.curDeleted)))) := by
  have hdb : db = { Name := name, docPfx := "doc:" ++ name ++ "/" ++ uuid ++ ":" } := by
    simp only [CreateDatabase] at hc
    split at hc
    · exact absurd hc (by simp)
    · split at hc
      · exact absurd hc (by simp)
      · rw [Except.ok.injEq, Prod.mk.injEq] at hc
        exact hc.1.symm
  subst hdb
  have huuid := dbUUID_of_create name name uuid
  refine ⟨huuid, fun r => ⟨rfl, rfl⟩, fun o => ⟨rfl, rfl⟩, ?_⟩
  intro hn hu d hd
  have hnu : ':' ∉ name.data ++ '/' :: uuid.data := by
    intro hmem
    rcases List.mem_append.mp hmem with h1 | h2
    · exact hn h1
    · rcases List.mem_cons.mp h2 with h3 | h4
      · exact absurd h3 (by decide)
      · exact hu h4
  have hdata :
      (realDocID { Name := name, docPfx := "doc:" ++ name ++ "/" ++ uuid ++ ":" } d).data =
        ['d', 'o', 'c'] ++ ':' :: ((name.data ++ '/' :: uuid.data) ++ ':' :: d.data) := by
    simp [realDocID, String.data_append, List.append_assoc]
  have hmk : String.mk (name.data ++ '/' :: uuid.data) = name ++ "/" ++ uuid := by
    apply String.ext
    show name.data ++ '/' :: uuid.data = (name ++ "/" ++ uuid).data
    simp [String.data_append, List.append_assoc]
  have hsplit :
      goSplit ':' (realDocID { Name := name, docPfx := "doc:" ++ name ++ "/" ++ uuid ++ ":" } d) =
        ["doc", name ++ "/" ++ uuid, d] := by
    unfold goSplit
    rw [hdata, splitCh_append ['d', 'o', 'c'] (by decide), splitCh_append _ hnu,
      splitCh_of_not_mem hd]
    simp only [List.map_cons, List.map_nil]
    rw [hmk]
  refine ⟨by rw [hsplit, huuid], ?_, ?_⟩
  · simp [alldocsMapEmit, hsplit, huuid]
  · intro rec s hs
    simp [changesMapEmit, hs, hsplit, huuid]

/-- C9 (witness for the amended theorem): the database "db" with uuid "u"
and the colon-free docid "foo". -/
theorem C9_uuid_amended_witness :
    CreateDatabase [] "db" "u" =
      .ok ({ Name := "db", docPfx := "doc:db/u:" },
           [("cdb:db", .dbRec "db" "doc:db/u:")])
    ∧ dbUUID { Name := "db", docPfx := "doc:db/u:" } = "db/u"
    ∧ goSplit ':' (realDocID { Name := "db", docPfx := "doc:db/u:" } "foo") =
        ["doc", "db/u", "foo"]
    ∧ alldocsMapEmit (realDocID { Name := "db", docPfx := "doc:db/u:" } "foo") =
        some [.str "db/u", .str "foo"] := by
  have h := C9_uuid_amended [] "db" "u" { Name := "db", docPfx := "doc:db/u:" }
    [("cdb:db", BVal.dbRec "db" "doc:db/u:")] rfl
  have h4 := h.2.2.2 (by decide) (by decide) "foo" (by decide)
  refine ⟨rfl, h.1.trans (by rfl), ?_, ?_⟩
  · rw [h4.1, h.1]
    decide
  · rw [h4.2.1, h.1]
    decide

end Basecouch
